import Mathlib

/-!
Verification of the moore query database and lazy HIR construction system.

This file is a shallow embedding, in Lean 4, of the two core subsystems of
the repository:

* the memoizing, cycle-detecting query database whose per-query methods are
  generated by `derive_query_db` in `src/derive/query.rs`;
* the lazy, fallible, arena-backed `Slot` construction system and the
  `Package2` / `TypeDecl2` HIR nodes of `src/vhdl/hir/pkg.rs`.

Machine-level details (Rust references, `RefCell`, `HashMap`/`HashSet`) are
rendered as pure data: arena references become indices into append-only
lists, the per-query caches become association lists looked up by first
match (so a later insert shadows, exactly like `HashMap::insert`), the
in-flight `HashSet` becomes a duplicate-free-by-construction list, and the
call stack a list with its head as the top.  The user-supplied query bodies
(which may re-enter the database) are modelled by the computation type
`Comp`; the interpreter `runQuery`/`runComp` is indexed by a fuel bound on
recursion depth, mirroring the finite call stack of the real program.  An
`execLog` field instruments each execution of a user-supplied query body —
it is the "counting side-channel" observation the specification itself uses
to state memoization and is not part of the generated `QueryStorage` struct.
-/

/-! ## Query tags, storage and user computations (src/derive/query.rs) -/

/-- A query tag: the identity of one query (numbered, standing for the
variants of the generated `QueryTag` enum) together with its argument
tuple.  Two tags are equal iff same query and same arguments. -/
abbrev QTag (K : Type) : Type := Nat × K

/-- A user-supplied query body, as a computation that can re-enter the
database: it either returns a result or invokes a query (by query number
and argument key) and continues with its result.  This models the fact that
the free function called by a generated query method may itself call other
generated query methods. -/
inductive Comp (K R : Type) : Type where
  | ret : R → Comp K R
  | query : Nat → K → (R → Comp K R) → Comp K R

/-- The query caches and runtime data of the generated `QueryStorage`
struct: the stack of currently-executing queries (head = top, mirroring
`Vec` push/pop at the end), the set of currently-executing queries, and the
per-query result caches (keyed by query number and argument tuple; an
association list where an insert conses in front, so lookup-by-first-match
gives `HashMap::insert` overwrite semantics).  `execLog` is instrumentation:
it records one entry per execution of a user-supplied query body. -/
structure QueryStorage (K R : Type) : Type where
  stack : List (QTag K)
  inflight : List (QTag K)
  cache : List (QTag K × R)
  execLog : List (QTag K)
deriving DecidableEq

/-- Look a tag up in a per-query cache (first match wins). -/
def lookupCache {K R : Type} [DecidableEq K] : List (QTag K × R) → QTag K → Option R
  | [], _ => none
  | (t, r) :: rest, tag => if t = tag then some r else lookupCache rest tag

/-- Remove the first occurrence of a tag from the in-flight set
(`HashSet::remove`; the set never holds duplicates). -/
def removeTag {K : Type} [DecidableEq K] : List (QTag K) → QTag K → List (QTag K)
  | [], _ => []
  | t :: rest, tag => if t = tag then rest else t :: removeTag rest tag

/-- Number of occurrences of a tag in a list of tags. -/
def countTag {K : Type} [DecidableEq K] : List (QTag K) → QTag K → Nat
  | [], _ => 0
  | t :: rest, tag => (if t = tag then 1 else 0) + countTag rest tag

/-- The outcome of running a query or computation: normal return with the
updated storage, abort via `handle_cycle` (which never returns normally, so
it carries no result, only the storage at the moment of detection), or fuel
exhaustion of the model interpreter. -/
inductive Outcome (K R : Type) : Type where
  | ok : R → QueryStorage K R → Outcome K R
  | cycle : QueryStorage K R → Outcome K R
  | fuelOut : Outcome K R
deriving DecidableEq

mutual

/-- One generated query method (the `fn #name` rendered by
`derive_query_db`), for the query numbered `qid` with key `key`:
cache check; push the tag onto the stack; insert it into the in-flight set,
aborting through `handle_cycle` if it is already present; execute the
user-supplied body; store the result in the cache; remove the tag from the
in-flight set and pop the stack; return the result.  `impl` gives every
query's user-supplied body. -/
def runQuery {K R : Type} [DecidableEq K] (impl : Nat → K → Comp K R) :
    Nat → Nat → K → QueryStorage K R → Outcome K R
  | 0, _, _, _ => Outcome.fuelOut
  | fuel + 1, qid, key, st =>
    match lookupCache st.cache (qid, key) with
    | some r => Outcome.ok r st
    | none =>
      let tag : QTag K := (qid, key)
      let st1 : QueryStorage K R := { st with stack := tag :: st.stack }
      if tag ∈ st1.inflight then
        Outcome.cycle st1
      else
        let st2 : QueryStorage K R :=
          { st1 with inflight := tag :: st1.inflight, execLog := tag :: st1.execLog }
        match runComp impl fuel (impl qid key) st2 with
        | Outcome.ok r st3 =>
          Outcome.ok r
            { st3 with
              cache := ((qid, key), r) :: st3.cache,
              inflight := removeTag st3.inflight (qid, key),
              stack := st3.stack.tail }
        | o => o

/-- Run a user computation, dispatching each of its query calls through the
generated query method `runQuery`. -/
def runComp {K R : Type} [DecidableEq K] (impl : Nat → K → Comp K R) :
    Nat → Comp K R → QueryStorage K R → Outcome K R
  | _, Comp.ret r, st => Outcome.ok r st
  | 0, Comp.query _ _ _, _ => Outcome.fuelOut
  | fuel + 1, Comp.query qid key k, st =>
    match runQuery impl fuel qid key st with
    | Outcome.ok r st' => runComp impl fuel (k r) st'
    | o => o

end

/-- The empty query storage (`QueryStorage::default()`). -/
def emptyStorage (K R : Type) : QueryStorage K R :=
  { stack := [], inflight := [], cache := [], execLog := [] }

/-! ## Spans and names (common::source / common::name)

The `common` crate is outside the sources under verification; only the shape
its types expose to `pkg.rs` is needed. -/

/-- Modelled from the spec: a source span, the location information every IR
node exposes; `common::source::Span` itself is outside the verified
sources. -/
structure Span : Type where
  lo : Nat
  hi : Nat
deriving DecidableEq

/-- Modelled from the spec: the sentinel "invalid span" value returned by a
slot whose construction failed; `common::source::INVALID_SPAN` is outside
the verified sources. -/
def INVALID_SPAN : Span := { lo := 0, hi := 0 }

/-- Modelled from the spec: an interned name (`common::name::Name` is
outside the verified sources); only equality matters here. -/
abbrev Name : Type := Nat

/-- Modelled from the spec: a value together with its source span
(`common::source::Spanned`, outside the verified sources). -/
structure Spanned (α : Type) : Type where
  value : α
  span : Span
deriving DecidableEq

/-- The opaque scope capability (`trait AnyScope` has no methods; nodes
merely hold a reference to it). -/
abbrev AnyScope : Type := Unit

/-! ## The generic lazy slot (src/vhdl/hir/pkg.rs, `Slot`)

A slot is a one-shot lazy cell for a node of type `T` built from an input
of type `I` under a scope of type `S`.  The arena reference held by a
`ReadyOk` slot is modelled as an index into the append-only arena list; the
`Context` arena handle that the Rust `Fresh` state stores is the arena
state itself, threaded through `poll`.  `execs` instruments the number of
times `T::from_ast` has run — the "counter inside `from_ast`" observation
of the specification.  Because construction may re-enter the slot (through
the arena context), the `from_ast` argument of `poll` receives, besides the
scope and the input, the slot state that such a reentrant poll would
observe at that moment. -/

/-- The state of a slot: unbuilt inputs, a stable arena reference to the
built node, or a permanent failure marker. -/
inductive SlotState (S I T : Type) : Type where
  | fresh : S → I → SlotState S I T
  | readyOk : Nat → SlotState S I T
  | readyErr : SlotState S I T
deriving DecidableEq

/-- A slot together with the sub-arena its references point into and the
`from_ast` execution counter. -/
structure Slot (S I T : Type) : Type where
  state : SlotState S I T
  arena : List T
  execs : Nat
deriving DecidableEq

/-- Create a new slot over the given arena (`Slot::new`). -/
def Slot.new {S I T : Type} (scope : S) (ast : I) (arena : List T) : Slot S I T :=
  { state := SlotState.fresh scope ast, arena := arena, execs := 0 }

/-- Poll the slot (`Slot::poll`): serve a ready state unchanged; on a fresh
slot, first replace the state by the tentative failure marker `readyErr`
(this is the state any reentrant poll performed inside `from_ast`
observes, passed to `from_ast` as its third argument), then run
construction, allocate the node into the arena on success, and store the
final state. -/
def Slot.poll {S I T : Type} (from_ast : S → I → SlotState S I T → Except Unit T)
    (s : Slot S I T) : Except Unit Nat × Slot S I T :=
  match s.state with
  | SlotState.readyOk i => (Except.ok i, s)
  | SlotState.readyErr => (Except.error (), s)
  | SlotState.fresh scope ast =>
    let node := from_ast scope ast SlotState.readyErr
    let s1 : Slot S I T := { s with execs := s.execs + 1 }
    match node with
    | Except.ok x =>
      (Except.ok s1.arena.length,
       { s1 with state := SlotState.readyOk s1.arena.length, arena := s1.arena ++ [x] })
    | Except.error _ =>
      (Except.error (), { s1 with state := SlotState.readyErr })

/-- Poll a slot `n` times in sequence, keeping only the final slot. -/
def Slot.pollIter {S I T : Type} (from_ast : S → I → SlotState S I T → Except Unit T) :
    Nat → Slot S I T → Slot S I T
  | 0, s => s
  | n + 1, s => Slot.pollIter from_ast n (Slot.poll from_ast s).2

/-- The `Node` impl for `Slot` (`fn span`): poll, map to the span of the
built node, and fall back to `INVALID_SPAN` on failure.  `sp` is the
`Node::span` method of the node type `T`. -/
def Slot.span {S I T : Type} (from_ast : S → I → SlotState S I T → Except Unit T)
    (sp : T → Span) (s : Slot S I T) : Span × Slot S I T :=
  match Slot.poll from_ast s with
  | (Except.ok i, s1) =>
    (match s1.arena.get? i with
     | some t => sp t
     | none => INVALID_SPAN, s1)
  | (Except.error _, s1) => (INVALID_SPAN, s1)

/-- A slot is well-formed when its `readyOk` reference points into its
arena; `poll` only ever creates such references. -/
def Slot.Wf {S I T : Type} (s : Slot S I T) : Prop :=
  ∀ i, s.state = SlotState.readyOk i → i < s.arena.length

/-! ## VHDL syntax nodes consumed by pkg.rs (syntax::ast)

Only the shape `pkg.rs` matches on is relevant: a package declaration has a
span, a name and a list of declarative items, of which the construction
code handles nested package declarations and type declarations and skips
every other item kind (the `_ => None` arm), collapsed here into
`DeclItem.other`. -/

mutual

/-- A declarative item inside a package (`ast::DeclItem`): the two variants
`pkg.rs` handles, and `other` standing for every remaining variant. -/
inductive DeclItem : Type where
  | pkgDecl : PkgDecl → DeclItem
  | typeDecl : TypeDecl → DeclItem
  | other : DeclItem

/-- A package declaration syntax node (`ast::PkgDecl`): span, name, and
declarative items. -/
inductive PkgDecl : Type where
  | mk : Span → Spanned Name → List DeclItem → PkgDecl

/-- A type declaration syntax node (`ast::TypeDecl`): span and name. -/
inductive TypeDecl : Type where
  | mk : Span → Spanned Name → TypeDecl

end

/-- The span of a package declaration syntax node. -/
def PkgDecl.span : PkgDecl → Span
  | PkgDecl.mk s _ _ => s

/-- The name of a package declaration syntax node. -/
def PkgDecl.name : PkgDecl → Spanned Name
  | PkgDecl.mk _ n _ => n

/-- The declarative items of a package declaration syntax node. -/
def PkgDecl.declItems : PkgDecl → List DeclItem
  | PkgDecl.mk _ _ ds => ds

/-- The span of a type declaration syntax node. -/
def TypeDecl.span : TypeDecl → Span
  | TypeDecl.mk s _ => s

/-- The name of a type declaration syntax node. -/
def TypeDecl.name : TypeDecl → Spanned Name
  | TypeDecl.mk _ n => n

/-! ## The HIR nodes and their arenas (src/vhdl/hir/pkg.rs) -/

/-- A `&'t Node` trait-object reference held in a package's `decls` vector:
a reference either to a package slot or to a type-declaration slot in the
corresponding sub-arena of `Arenas2`. -/
inductive NodeRef : Type where
  | pkgSlot : Nat → NodeRef
  | typeSlot : Nat → NodeRef
deriving DecidableEq

/-- The `Package2` HIR node: identity, span, name, enclosing scope, and the
child-node references collected at construction time. -/
structure Package2 : Type where
  id : Nat
  span : Span
  name : Spanned Name
  scope : AnyScope
  decls : List NodeRef
deriving DecidableEq

/-- The `TypeDecl2` HIR node: identity, span, name. -/
structure TypeDecl2 : Type where
  id : Nat
  span : Span
  name : Spanned Name
deriving DecidableEq

/-- The read accessor `Package2::decls`. -/
def Package2.declsAccessor (p : Package2) : List NodeRef :=
  p.decls

/-- The `Node::span` impl of `Package2`. -/
def Package2.nodeSpan (p : Package2) : Span :=
  p.span

/-- The `Node::span` impl of `TypeDecl2`. -/
def TypeDecl2.nodeSpan (t : TypeDecl2) : Span :=
  t.span

/-- The arena collection generated by `make_arenas!` for `pkg.rs`, holding
built packages, built type declarations, and the two slot sub-arenas; a
reference into a sub-arena is its index.  `nextId` models the global
`NodeId::alloc()` counter, threaded through the state. -/
structure Arenas2 : Type where
  package : List Package2
  type_decl : List TypeDecl2
  package_slot : List (SlotState AnyScope PkgDecl Package2)
  type_decl_slot : List (SlotState AnyScope TypeDecl TypeDecl2)
  nextId : Nat

/-- `Package2::alloc_slot`: wrap the inputs in a fresh slot; never fails. -/
def Package2.alloc_slot (scope : AnyScope) (ast : PkgDecl) :
    Except Unit (SlotState AnyScope PkgDecl Package2) :=
  Except.ok (SlotState.fresh scope ast)

/-- `TypeDecl2::alloc_slot`: wrap the inputs in a fresh slot; never
fails. -/
def TypeDecl2.alloc_slot (scope : AnyScope) (ast : TypeDecl) :
    Except Unit (SlotState AnyScope TypeDecl TypeDecl2) :=
  Except.ok (SlotState.fresh scope ast)

/-- The `flat_map` over `ast.decls` inside `Package2::from_ast`: for each
nested package or type declaration, allocate a fresh child slot into the
corresponding sub-arena and collect a reference to it; a failed slot
allocation (`.ok()?`) and any other item kind are silently skipped. -/
def allocDeclSlots (scope : AnyScope) : List DeclItem → Arenas2 → List NodeRef × Arenas2
  | [], ar => ([], ar)
  | DeclItem.pkgDecl d :: ds, ar =>
    (match Package2.alloc_slot scope d with
     | Except.ok slot =>
       let r := NodeRef.pkgSlot ar.package_slot.length
       let ar1 := { ar with package_slot := ar.package_slot ++ [slot] }
       let rest := allocDeclSlots scope ds ar1
       (r :: rest.1, rest.2)
     | Except.error _ => allocDeclSlots scope ds ar)
  | DeclItem.typeDecl d :: ds, ar =>
    (match TypeDecl2.alloc_slot scope d with
     | Except.ok slot =>
       let r := NodeRef.typeSlot ar.type_decl_slot.length
       let ar1 := { ar with type_decl_slot := ar.type_decl_slot ++ [slot] }
       let rest := allocDeclSlots scope ds ar1
       (r :: rest.1, rest.2)
     | Except.error _ => allocDeclSlots scope ds ar)
  | DeclItem.other :: ds, ar => allocDeclSlots scope ds ar

/-- `Package2::from_ast`: allocate one fresh child slot per nested package
or type declaration, collect the references, and build the package node
(allocating a fresh `NodeId`); always succeeds. -/
def Package2.from_ast (scope : AnyScope) (ast : PkgDecl) (ar : Arenas2) :
    Except Unit Package2 × Arenas2 :=
  let built := allocDeclSlots scope ast.declItems ar
  (Except.ok
    { id := built.2.nextId,
      span := ast.span,
      name := ast.name,
      scope := scope,
      decls := built.1 },
   { built.2 with nextId := built.2.nextId + 1 })

/-- `TypeDecl2::from_ast`: build the node (allocating a fresh `NodeId`);
always succeeds. -/
def TypeDecl2.from_ast (_scope : AnyScope) (ast : TypeDecl) (ar : Arenas2) :
    Except Unit TypeDecl2 × Arenas2 :=
  (Except.ok { id := ar.nextId, span := ast.span, name := ast.name },
   { ar with nextId := ar.nextId + 1 })

/-- `Slot::poll` specialised to the package slot stored at index `i` of the
`package_slot` sub-arena: ready states are served unchanged; a fresh slot
is first overwritten with the tentative `readyErr` marker, then
`Package2::from_ast` runs, the built node is allocated into the `package`
sub-arena, and the slot is finalised. -/
def pollPackageSlot (i : Nat) (ar : Arenas2) : Except Unit Nat × Arenas2 :=
  match ar.package_slot.get? i with
  | none => (Except.error (), ar)
  | some (SlotState.readyOk j) => (Except.ok j, ar)
  | some SlotState.readyErr => (Except.error (), ar)
  | some (SlotState.fresh scope ast) =>
    let ar1 := { ar with package_slot := ar.package_slot.set i SlotState.readyErr }
    match Package2.from_ast scope ast ar1 with
    | (Except.ok pkg, ar2) =>
      let j := ar2.package.length
      (Except.ok j,
       { ar2 with
         package := ar2.package ++ [pkg],
         package_slot := ar2.package_slot.set i (SlotState.readyOk j) })
    | (Except.error _, ar2) =>
      (Except.error (), { ar2 with package_slot := ar2.package_slot.set i SlotState.readyErr })

/-- `Slot::poll` specialised to the type-declaration slot stored at index
`i` of the `type_decl_slot` sub-arena. -/
def pollTypeDeclSlot (i : Nat) (ar : Arenas2) : Except Unit Nat × Arenas2 :=
  match ar.type_decl_slot.get? i with
  | none => (Except.error (), ar)
  | some (SlotState.readyOk j) => (Except.ok j, ar)
  | some SlotState.readyErr => (Except.error (), ar)
  | some (SlotState.fresh scope ast) =>
    let ar1 := { ar with type_decl_slot := ar.type_decl_slot.set i SlotState.readyErr }
    match TypeDecl2.from_ast scope ast ar1 with
    | (Except.ok node, ar2) =>
      let j := ar2.type_decl.length
      (Except.ok j,
       { ar2 with
         type_decl := ar2.type_decl ++ [node],
         type_decl_slot := ar2.type_decl_slot.set i (SlotState.readyOk j) })
    | (Except.error _, ar2) =>
      (Except.error (),
       { ar2 with type_decl_slot := ar2.type_decl_slot.set i SlotState.readyErr })

/-- Does `Package2::from_ast` collect a child slot for this declarative
item?  True exactly for nested package and type declarations. -/
def DeclItem.isChild : DeclItem → Bool
  | DeclItem.pkgDecl _ => true
  | DeclItem.typeDecl _ => true
  | DeclItem.other => false

/-- A node reference points at a still-fresh (never polled) slot of the
arena collection. -/
def NodeRef.isFreshIn (ar : Arenas2) : NodeRef → Prop
  | NodeRef.pkgSlot i => ∃ sc d, ar.package_slot.get? i = some (SlotState.fresh sc d)
  | NodeRef.typeSlot i => ∃ sc d, ar.type_decl_slot.get? i = some (SlotState.fresh sc d)

/-- The empty arena collection. -/
def emptyArenas : Arenas2 :=
  { package := [], type_decl := [], package_slot := [], type_decl_slot := [], nextId := 0 }

/-! ## Derived predicates and concrete fixtures -/

/-- Bookkeeping relation between the storage before and after a normally
completing call: stack and in-flight set are restored exactly, every cached
entry is preserved, and no tag that was in flight at the start has had its
user-supplied body executed again. -/
def Restores {K R : Type} [DecidableEq K] (st st' : QueryStorage K R) : Prop :=
  st'.stack = st.stack ∧
  st'.inflight = st.inflight ∧
  (∀ t r0, lookupCache st.cache t = some r0 → lookupCache st'.cache t = some r0) ∧
  (∀ t, t ∈ st.inflight → countTag st'.execLog t = countTag st.execLog t)

/-- Fixture: the `square` example body of the specification, `x * x`. -/
def squareBody : Nat → Nat → Comp Nat Nat :=
  fun _ k => Comp.ret (k * k)

/-- Fixture: a query body that immediately re-invokes its own query with
the same arguments. -/
def selfCallBody : Nat → Nat → Comp Nat Nat :=
  fun qid key => Comp.query qid key Comp.ret

/-- Fixture: a storage as it looks while query `0` with key `7` is
executing (its tag pushed and in flight, body execution logged). -/
def midFlightStorage : QueryStorage Nat Nat :=
  { stack := [(0, 7)], inflight := [(0, 7)], cache := [], execLog := [(0, 7)] }

/-- Fixture: a storage whose cache already holds query `0` at key `5`. -/
def cachedStorage : QueryStorage Nat Nat :=
  { stack := [], inflight := [], cache := [((0, 5), 25)], execLog := [(0, 5)] }

/-- Fixture: a construction function that always succeeds, recording its
input. -/
def okFromAst : Unit → Nat → SlotState Unit Nat Nat → Except Unit Nat :=
  fun _ n _ => Except.ok (n + 1)

/-- Fixture: a construction function that inspects the slot state a
reentrant poll of the slot under construction would observe; it agrees
with `okFromAst` on the `readyErr` tentative marker but differs on
`readyOk` states. -/
def reentrantFromAst : Unit → Nat → SlotState Unit Nat Nat → Except Unit Nat :=
  fun _ n s =>
    match s with
    | SlotState.readyOk i => Except.ok i
    | _ => Except.ok (n + 1)

/-- Fixture: a construction function that always fails. -/
def errFromAst : Unit → Nat → SlotState Unit Nat Nat → Except Unit Nat :=
  fun _ _ _ => Except.error ()

/-- Fixture: a `Node::span` method for `Nat` nodes. -/
def natSpan : Nat → Span :=
  fun n => { lo := n, hi := n }

/-- Fixture: a fresh slot over an arena already holding one node. -/
def freshSlotNat : Slot Unit Nat Nat :=
  Slot.new () 3 [42]

/-- Fixture: the slot obtained by polling `freshSlotNat` under
`okFromAst`. -/
def readySlotNat : Slot Unit Nat Nat :=
  { state := SlotState.readyOk 1, arena := [42, 4], execs := 1 }

/-- Fixture: the slot obtained by polling `freshSlotNat` under
`errFromAst`. -/
def errSlotNat : Slot Unit Nat Nat :=
  { state := SlotState.readyErr, arena := [42], execs := 1 }

/-- Fixture: a type declaration syntax node. -/
def exTypeDecl : TypeDecl :=
  TypeDecl.mk { lo := 1, hi := 2 } { value := 10, span := { lo := 1, hi := 2 } }

/-- Fixture: an empty nested package declaration syntax node. -/
def exInnerPkg : PkgDecl :=
  PkgDecl.mk { lo := 3, hi := 9 } { value := 11, span := { lo := 3, hi := 4 } } []

/-- Fixture: a package declaration with a type declaration, an unhandled
item, and a nested package declaration. -/
def exPkgDecl : PkgDecl :=
  PkgDecl.mk { lo := 0, hi := 20 } { value := 12, span := { lo := 0, hi := 1 } }
    [DeclItem.typeDecl exTypeDecl, DeclItem.other, DeclItem.pkgDecl exInnerPkg]

/-- Fixture: the storage after evaluating the square query at key `4` from
the empty storage. -/
def squareDoneStorage : QueryStorage Nat Nat :=
  { stack := [], inflight := [], cache := [((0, 4), 16)], execLog := [(0, 4)] }

/-- Fixture: the storage after evaluating the square query at key `6` on
top of `cachedStorage`. -/
def twoKeysStorage : QueryStorage Nat Nat :=
  { stack := [], inflight := [], cache := [((0, 6), 36), ((0, 5), 25)],
    execLog := [(0, 6), (0, 5)] }

/-- Fixture: the arena collection after `Package2::from_ast` has processed
`exPkgDecl` on empty arenas: one fresh type-declaration slot and one fresh
nested-package slot, nothing built yet. -/
def exArenas : Arenas2 :=
  { package := [],
    type_decl := [],
    package_slot := [SlotState.fresh () exInnerPkg],
    type_decl_slot := [SlotState.fresh () exTypeDecl],
    nextId := 1 }

/-! ## Basic lemmas about the storage primitives -/

theorem lookupCache_cons_self {K R : Type} [DecidableEq K] (t : QTag K) (r : R)
    (c : List (QTag K × R)) : lookupCache ((t, r) :: c) t = some r := by
  simp [lookupCache]

theorem lookupCache_cons_ne {K R : Type} [DecidableEq K] (t t' : QTag K) (r : R)
    (c : List (QTag K × R)) (h : t' ≠ t) :
    lookupCache ((t', r) :: c) t = lookupCache c t := by
  simp [lookupCache, h]

theorem removeTag_cons_self {K : Type} [DecidableEq K] (t : QTag K) (l : List (QTag K)) :
    removeTag (t :: l) t = l := by
  simp [removeTag]

theorem countTag_cons_self {K : Type} [DecidableEq K] (t : QTag K) (l : List (QTag K)) :
    countTag (t :: l) t = countTag l t + 1 := by
  simp [countTag, Nat.add_comm]

theorem countTag_cons_ne {K : Type} [DecidableEq K] (t t' : QTag K) (l : List (QTag K))
    (h : t' ≠ t) : countTag (t' :: l) t = countTag l t := by
  simp [countTag, h]

/-! ## Unfolding equations of the query interpreter -/

theorem runQuery_zero {K R : Type} [DecidableEq K] (impl : Nat → K → Comp K R)
    (qid : Nat) (key : K) (st : QueryStorage K R) :
    runQuery impl 0 qid key st = Outcome.fuelOut := rfl

theorem runQuery_succ {K R : Type} [DecidableEq K] (impl : Nat → K → Comp K R)
    (fuel qid : Nat) (key : K) (st : QueryStorage K R) :
    runQuery impl (fuel + 1) qid key st =
      match lookupCache st.cache (qid, key) with
      | some r => Outcome.ok r st
      | none =>
        if (qid, key) ∈ st.inflight then
          Outcome.cycle { st with stack := (qid, key) :: st.stack }
        else
          match runComp impl fuel (impl qid key)
              { st with
                stack := (qid, key) :: st.stack,
                inflight := (qid, key) :: st.inflight,
                execLog := (qid, key) :: st.execLog } with
          | Outcome.ok r st3 =>
            Outcome.ok r
              { st3 with
                cache := ((qid, key), r) :: st3.cache,
                inflight := removeTag st3.inflight (qid, key),
                stack := st3.stack.tail }
          | o => o := rfl

theorem runComp_ret {K R : Type} [DecidableEq K] (impl : Nat → K → Comp K R)
    (fuel : Nat) (r : R) (st : QueryStorage K R) :
    runComp impl fuel (Comp.ret r) st = Outcome.ok r st := by
  cases fuel <;> rfl

theorem runComp_query {K R : Type} [DecidableEq K] (impl : Nat → K → Comp K R)
    (fuel qid : Nat) (key : K) (k : R → Comp K R) (st : QueryStorage K R) :
    runComp impl (fuel + 1) (Comp.query qid key k) st =
      match runQuery impl fuel qid key st with
      | Outcome.ok r st' => runComp impl fuel (k r) st'
      | o => o := rfl

/-! ## The bookkeeping invariant of normally completing calls -/

theorem restores_refl {K R : Type} [DecidableEq K] (st : QueryStorage K R) :
    Restores st st :=
  ⟨rfl, rfl, fun _ _ h => h, fun _ _ => rfl⟩

theorem restores_trans {K R : Type} [DecidableEq K] {st1 st2 st3 : QueryStorage K R}
    (h1 : Restores st1 st2) (h2 : Restores st2 st3) : Restores st1 st3 := by
  obtain ⟨hs1, hi1, hc1, he1⟩ := h1
  obtain ⟨hs2, hi2, hc2, he2⟩ := h2
  refine ⟨hs2.trans hs1, hi2.trans hi1, fun t r0 h => hc2 t r0 (hc1 t r0 h), fun t ht => ?_⟩
  have ht2 : t ∈ st2.inflight := by rw [hi1]; exact ht
  exact (he2 t ht2).trans (he1 t ht)

/-- Master invariant, by induction on fuel: a normally completing query
call restores the stack and in-flight set, preserves every cached entry,
never re-executes a body whose tag was in flight when it started, caches
its own result, and executes its own body exactly once on a cache miss and
never otherwise. -/
theorem run_ok_invariants {K R : Type} [DecidableEq K] (impl : Nat → K → Comp K R) :
    ∀ fuel : Nat,
      (∀ qid key st r st2, runQuery impl fuel qid key st = Outcome.ok r st2 →
        Restores st st2 ∧
        lookupCache st2.cache (qid, key) = some r ∧
        countTag st2.execLog (qid, key) ≤ countTag st.execLog (qid, key) + 1 ∧
        (lookupCache st.cache (qid, key) = none →
          countTag st2.execLog (qid, key) = countTag st.execLog (qid, key) + 1)) ∧
      (∀ c st r st2, runComp impl fuel c st = Outcome.ok r st2 → Restores st st2) := by
  intro fuel
  induction fuel with
  | zero =>
    constructor
    · intro qid key st r st2 h
      rw [runQuery_zero] at h
      exact Outcome.noConfusion h
    · intro c st r st2 h
      cases c with
      | ret r0 =>
        rw [runComp_ret] at h
        injection h with h1 h2
        subst h2
        exact restores_refl st
      | query qid key k =>
        exact Outcome.noConfusion h
  | succ fuel ih =>
    obtain ⟨ihq, ihc⟩ := ih
    constructor
    · intro qid key st r st2 h
      rw [runQuery_succ] at h
      cases hcache : lookupCache st.cache (qid, key) with
      | some r0 =>
        rw [hcache] at h
        injection h with h1 h2
        subst h1
        subst h2
        refine ⟨restores_refl st, hcache, Nat.le_succ _, fun hnone => ?_⟩
        exact Option.noConfusion hnone
      | none =>
        rw [hcache] at h
        by_cases hin : (qid, key) ∈ st.inflight
        · rw [if_pos hin] at h
          exact Outcome.noConfusion h
        · rw [if_neg hin] at h
          cases hbody : runComp impl fuel (impl qid key)
              { st with
                stack := (qid, key) :: st.stack,
                inflight := (qid, key) :: st.inflight,
                execLog := (qid, key) :: st.execLog } with
          | ok r3 st3 =>
            rw [hbody] at h
            injection h with h1 h2
            subst h1
            subst h2
            obtain ⟨hs3, hi3, hc3, he3⟩ := ihc _ _ _ _ hbody
            have hs3' : st3.stack = (qid, key) :: st.stack := hs3
            have hi3' : st3.inflight = (qid, key) :: st.inflight := hi3
            have hc3' : ∀ t r0, lookupCache st.cache t = some r0 →
                lookupCache st3.cache t = some r0 := hc3
            have he3' : ∀ t, t ∈ (qid, key) :: st.inflight →
                countTag st3.execLog t = countTag ((qid, key) :: st.execLog) t := he3
            have hselfcount : countTag st3.execLog (qid, key) =
                countTag st.execLog (qid, key) + 1 := by
              rw [he3' (qid, key) (List.mem_cons_self _ _), countTag_cons_self]
            refine ⟨⟨?_, ?_, ?_, ?_⟩, ?_, ?_, ?_⟩
            · show st3.stack.tail = st.stack
              rw [hs3']
              rfl
            · show removeTag st3.inflight (qid, key) = st.inflight
              rw [hi3', removeTag_cons_self]
            · intro t r0 hl
              have htne : t ≠ (qid, key) := by
                intro e
                rw [e, hcache] at hl
                exact Option.noConfusion hl
              show lookupCache (((qid, key), r3) :: st3.cache) t = some r0
              rw [lookupCache_cons_ne _ _ _ _ (Ne.symm htne)]
              exact hc3' t r0 hl
            · intro t ht
              have htne : t ≠ (qid, key) := by
                intro e
                rw [e] at ht
                exact hin ht
              show countTag st3.execLog t = countTag st.execLog t
              rw [he3' t (List.mem_cons_of_mem _ ht), countTag_cons_ne _ _ _ (Ne.symm htne)]
            · show lookupCache (((qid, key), r3) :: st3.cache) (qid, key) = some r3
              exact lookupCache_cons_self _ _ _
            · show countTag st3.execLog (qid, key) ≤ countTag st.execLog (qid, key) + 1
              rw [hselfcount]
            · intro _
              show countTag st3.execLog (qid, key) = countTag st.execLog (qid, key) + 1
              exact hselfcount
          | cycle st3 =>
            rw [hbody] at h
            exact Outcome.noConfusion h
          | fuelOut =>
            rw [hbody] at h
            exact Outcome.noConfusion h
    · intro c st r st2 h
      cases c with
      | ret r0 =>
        rw [runComp_ret] at h
        injection h with h1 h2
        subst h2
        exact restores_refl st
      | query qid key k =>
        rw [runComp_query] at h
        cases hq : runQuery impl fuel qid key st with
        | ok r1 st1 =>
          rw [hq] at h
          exact restores_trans ((ihq qid key st r1 st1 hq).1) (ihc (k r1) st1 r st2 h)
        | cycle st1 =>
          rw [hq] at h
          exact Outcome.noConfusion h
        | fuelOut =>
          rw [hq] at h
          exact Outcome.noConfusion h

/-! ## Claim theorems: the query database -/

/-- C1 — Memoization: for a fixed database instance and fixed arguments,
two successive invocations of a generated query method return equal
results, execute the user-supplied body at most once in total (exactly once
when the key was not already cached), and the second call is served from
the per-query cache, leaving the storage untouched. -/
theorem query_memoization {K R : Type} [DecidableEq K] (impl : Nat → K → Comp K R)
    (fuel fuel2 qid : Nat) (key : K) (st st1 st2 : QueryStorage K R) (r1 r2 : R)
    (h1 : runQuery impl fuel qid key st = Outcome.ok r1 st1)
    (h2 : runQuery impl fuel2 qid key st1 = Outcome.ok r2 st2) :
    r2 = r1 ∧ st2 = st1 ∧
    lookupCache st1.cache (qid, key) = some r1 ∧
    countTag st2.execLog (qid, key) ≤ countTag st.execLog (qid, key) + 1 ∧
    (lookupCache st.cache (qid, key) = none →
      countTag st2.execLog (qid, key) = countTag st.execLog (qid, key) + 1) := by
  obtain ⟨hre, hcached, hle, hexact⟩ := ((run_ok_invariants impl fuel).1) qid key st r1 st1 h1
  cases fuel2 with
  | zero =>
    rw [runQuery_zero] at h2
    exact Outcome.noConfusion h2
  | succ f2 =>
    rw [runQuery_succ, hcached] at h2
    injection h2 with hr hst
    subst hr
    subst hst
    exact ⟨rfl, rfl, hcached, hle, hexact⟩

/-- Witness for `query_memoization`: the spec's square example at key 4,
run twice from the empty storage. -/
theorem query_memoization_witness :
    (16 : Nat) = 16 ∧ squareDoneStorage = squareDoneStorage ∧
    lookupCache squareDoneStorage.cache (0, 4) = some 16 ∧
    countTag squareDoneStorage.execLog (0, 4) ≤
      countTag (emptyStorage Nat Nat).execLog (0, 4) + 1 ∧
    (lookupCache (emptyStorage Nat Nat).cache (0, 4) = none →
      countTag squareDoneStorage.execLog (0, 4) =
        countTag (emptyStorage Nat Nat).execLog (0, 4) + 1) :=
  query_memoization squareBody 2 2 0 4 (emptyStorage Nat Nat) squareDoneStorage
    squareDoneStorage 16 16 (by decide) (by decide)

/-- C2 — Cycle detection: re-invoking a query whose tag is already in
flight (and therefore on the call stack) while its key is still uncached
makes the generated method detect the cycle: it aborts through
`handle_cycle` before executing the user-supplied body again (the
execution log at the moment of detection is unchanged), the whole
enclosing computation aborts with it (the continuation is discarded, since
`handle_cycle` never returns normally), and the call stack at detection
time holds the tag at least twice. -/
theorem query_cycle_detection {K R : Type} [DecidableEq K] (impl : Nat → K → Comp K R)
    (fuel qid : Nat) (key : K) (st : QueryStorage K R)
    (hmiss : lookupCache st.cache (qid, key) = none)
    (hin : (qid, key) ∈ st.inflight)
    (hstk : 1 ≤ countTag st.stack (qid, key)) :
    runQuery impl (fuel + 1) qid key st =
      Outcome.cycle { st with stack := (qid, key) :: st.stack } ∧
    (∀ k, runComp impl (fuel + 1 + 1) (Comp.query qid key k) st =
      Outcome.cycle { st with stack := (qid, key) :: st.stack }) ∧
    2 ≤ countTag ((qid, key) :: st.stack) (qid, key) ∧
    ({ st with stack := (qid, key) :: st.stack } : QueryStorage K R).execLog =
      st.execLog := by
  have hq : runQuery impl (fuel + 1) qid key st =
      Outcome.cycle { st with stack := (qid, key) :: st.stack } := by
    rw [runQuery_succ, hmiss, if_pos hin]
  refine ⟨hq, fun k => ?_, ?_, rfl⟩
  · rw [runComp_query, hq]
  · rw [countTag_cons_self]
    omega

/-- Witness for `query_cycle_detection`: a body that re-invokes its own
query with the same key, detected mid-flight. -/
theorem query_cycle_detection_witness :
    runQuery selfCallBody 2 0 7 midFlightStorage =
      Outcome.cycle
        { stack := [(0, 7), (0, 7)], inflight := [(0, 7)], cache := [],
          execLog := [(0, 7)] } ∧
    runComp selfCallBody 3 (Comp.query 0 7 Comp.ret) midFlightStorage =
      Outcome.cycle
        { stack := [(0, 7), (0, 7)], inflight := [(0, 7)], cache := [],
          execLog := [(0, 7)] } ∧
    2 ≤ countTag [(0, 7), (0, 7)] ((0, 7) : QTag Nat) := by
  obtain ⟨ha, hb, hc, _⟩ :=
    query_cycle_detection selfCallBody 1 0 7 midFlightStorage (by decide) (by decide)
      (by decide)
  exact ⟨ha, hb Comp.ret, hc⟩

/-- C5 — Argument sensitivity: distinct keys occupy independent cache
entries of the same query's cache; evaluating the query at key `b` leaves
the cached entry of key `a` present and unchanged, and gives `b` its own
entry. -/
theorem query_argument_sensitivity {K R : Type} [DecidableEq K]
    (impl : Nat → K → Comp K R) (fuel qid : Nat) (a b : K) (r rb : R)
    (st st' : QueryStorage K R)
    (hA : lookupCache st.cache (qid, a) = some r)
    (hne : a ≠ b)
    (h : runQuery impl fuel qid b st = Outcome.ok rb st') :
    lookupCache st'.cache (qid, a) = some r ∧
    lookupCache st'.cache (qid, b) = some rb := by
  obtain ⟨⟨_, _, hc, _⟩, hcb, _, _⟩ := (run_ok_invariants impl fuel).1 qid b st rb st' h
  exact ⟨hc _ _ hA, hcb⟩

/-- Witness for `query_argument_sensitivity`: key 6 computed on top of a
cache holding key 5. -/
theorem query_argument_sensitivity_witness :
    lookupCache twoKeysStorage.cache (0, 5) = some 25 ∧
    lookupCache twoKeysStorage.cache (0, 6) = some 36 :=
  query_argument_sensitivity squareBody 2 0 5 6 25 36 cachedStorage twoKeysStorage
    (by decide) (by decide) (by decide)

/-- C6 — Bookkeeping restoration: every normally completing query call
removes the tag it pushed from the in-flight set and pops it from the call
stack before returning, so stack and in-flight set equal their contents
before the call. -/
theorem query_bookkeeping_restored {K R : Type} [DecidableEq K]
    (impl : Nat → K → Comp K R) (fuel qid : Nat) (key : K) (r : R)
    (st st' : QueryStorage K R)
    (h : runQuery impl fuel qid key st = Outcome.ok r st') :
    st'.stack = st.stack ∧ st'.inflight = st.inflight := by
  obtain ⟨⟨hs, hi, _, _⟩, _⟩ := (run_ok_invariants impl fuel).1 qid key st r st' h
  exact ⟨hs, hi⟩

/-- Witness for `query_bookkeeping_restored`: the square query from the
empty storage ends with empty stack and in-flight set. -/
theorem query_bookkeeping_restored_witness :
    squareDoneStorage.stack = (emptyStorage Nat Nat).stack ∧
    squareDoneStorage.inflight = (emptyStorage Nat Nat).inflight :=
  query_bookkeeping_restored squareBody 2 0 4 16 (emptyStorage Nat Nat)
    squareDoneStorage (by decide)

/-- C7 — Cache-hit fast path: when the per-query cache already holds the
key, the generated method returns a copy of the stored result at once with
the storage completely untouched: nothing is pushed onto the call stack,
the in-flight set is not modified, and the user-supplied body does not
run. -/
theorem query_cache_hit_fast_path {K R : Type} [DecidableEq K]
    (impl : Nat → K → Comp K R) (fuel qid : Nat) (key : K) (r : R)
    (st : QueryStorage K R)
    (h : lookupCache st.cache (qid, key) = some r) :
    runQuery impl (fuel + 1) qid key st = Outcome.ok r st := by
  rw [runQuery_succ, h]

/-- Witness for `query_cache_hit_fast_path`: serving key 5 from the warm
cache. -/
theorem query_cache_hit_fast_path_witness :
    runQuery squareBody 1 0 5 cachedStorage = Outcome.ok 25 cachedStorage :=
  query_cache_hit_fast_path squareBody 0 0 5 25 cachedStorage (by decide)

/-! ## Lemmas about the generic slot -/

theorem Slot.poll_readyOk {S I T : Type} (f : S → I → SlotState S I T → Except Unit T)
    (s : Slot S I T) (i : Nat) (h : s.state = SlotState.readyOk i) :
    Slot.poll f s = (Except.ok i, s) := by
  simp [Slot.poll, h]

theorem Slot.poll_readyErr {S I T : Type} (f : S → I → SlotState S I T → Except Unit T)
    (s : Slot S I T) (h : s.state = SlotState.readyErr) :
    Slot.poll f s = (Except.error (), s) := by
  simp [Slot.poll, h]

theorem Slot.pollIter_mk_readyOk {S I T : Type}
    (f : S → I → SlotState S I T → Except Unit T) :
    ∀ (n i : Nat) (ar : List T) (e : Nat),
      Slot.pollIter f n (⟨SlotState.readyOk i, ar, e⟩ : Slot S I T) =
        ⟨SlotState.readyOk i, ar, e⟩ := by
  intro n
  induction n with
  | zero => intro i ar e; rfl
  | succ n ih =>
    intro i ar e
    show Slot.pollIter f n
      (Slot.poll f (⟨SlotState.readyOk i, ar, e⟩ : Slot S I T)).2 = _
    rw [Slot.poll_readyOk f _ i rfl]
    exact ih i ar e

theorem Slot.pollIter_mk_readyErr {S I T : Type}
    (f : S → I → SlotState S I T → Except Unit T) :
    ∀ (n : Nat) (ar : List T) (e : Nat),
      Slot.pollIter f n (⟨SlotState.readyErr, ar, e⟩ : Slot S I T) =
        ⟨SlotState.readyErr, ar, e⟩ := by
  intro n
  induction n with
  | zero => intro ar e; rfl
  | succ n ih =>
    intro ar e
    show Slot.pollIter f n
      (Slot.poll f (⟨SlotState.readyErr, ar, e⟩ : Slot S I T)).2 = _
    rw [Slot.poll_readyErr f _ rfl]
    exact ih ar e

theorem Slot.pollIter_execs_le {S I T : Type}
    (f : S → I → SlotState S I T → Except Unit T) :
    ∀ (n : Nat) (s : Slot S I T), (Slot.pollIter f n s).execs ≤ s.execs + 1 := by
  intro n
  induction n with
  | zero => intro s; exact Nat.le_succ _
  | succ n ih =>
    intro s
    show (Slot.pollIter f n (Slot.poll f s).2).execs ≤ s.execs + 1
    cases hs : s.state with
    | readyOk i =>
      rw [Slot.poll_readyOk f s i hs]
      exact ih s
    | readyErr =>
      rw [Slot.poll_readyErr f s hs]
      exact ih s
    | fresh sc a =>
      simp only [Slot.poll, hs]
      cases hf : f sc a SlotState.readyErr with
      | ok x =>
        simp only [hf]
        rw [Slot.pollIter_mk_readyOk]
      | error e =>
        simp only [hf]
        rw [Slot.pollIter_mk_readyErr]

theorem Slot.poll_ok_get {S I T : Type} (f : S → I → SlotState S I T → Except Unit T)
    (s : Slot S I T) (hwf : Slot.Wf s) (i : Nat)
    (h : (Slot.poll f s).1 = Except.ok i) :
    ∃ t, (Slot.poll f s).2.arena.get? i = some t := by
  cases hs : s.state with
  | readyOk j =>
    rw [Slot.poll_readyOk f s j hs] at h ⊢
    injection h with h1
    subst h1
    have hlt := hwf j hs
    exact ⟨s.arena.get ⟨j, hlt⟩, List.get?_eq_get hlt⟩
  | readyErr =>
    rw [Slot.poll_readyErr f s hs] at h
    exact Except.noConfusion h
  | fresh sc a =>
    simp only [Slot.poll, hs] at h ⊢
    cases hf : f sc a SlotState.readyErr with
    | ok x =>
      simp only [hf] at h ⊢
      injection h with h1
      subst h1
      exact ⟨x, List.get?_concat_length s.arena x⟩
    | error e =>
      simp only [hf] at h
      exact Except.noConfusion h

/-! ## Claim theorems: the slot system -/

/-- C3 — Slot idempotence: a slot in a final `readyOk` or `readyErr` state
returns, on every poll, the identical outcome (same arena reference, or
the same `Err(())` failure signal) without any change to the slot — in
particular without running `from_ast` again; and over any number of polls
of a slot's lifetime, `from_ast` runs at most once. -/
theorem slot_idempotence {S I T : Type} (f : S → I → SlotState S I T → Except Unit T)
    (s : Slot S I T) :
    (∀ i, s.state = SlotState.readyOk i → Slot.poll f s = (Except.ok i, s)) ∧
    (s.state = SlotState.readyErr → Slot.poll f s = (Except.error (), s)) ∧
    (∀ n, (Slot.pollIter f n s).execs ≤ s.execs + 1) ∧
    (∀ (sc : S) (a : I) (ar : List T) (n : Nat),
      (Slot.pollIter f n (Slot.new sc a ar)).execs ≤ 1) :=
  ⟨fun i h => Slot.poll_readyOk f s i h,
   fun h => Slot.poll_readyErr f s h,
   fun n => Slot.pollIter_execs_le f n s,
   fun sc a ar n => Slot.pollIter_execs_le f n (Slot.new sc a ar)⟩

/-- Witness for `slot_idempotence`: a built slot and a failed slot are
fixed by polling, and five polls of a fresh slot run construction at most
once. -/
theorem slot_idempotence_witness :
    Slot.poll okFromAst readySlotNat = (Except.ok 1, readySlotNat) ∧
    Slot.poll okFromAst errSlotNat = (Except.error (), errSlotNat) ∧
    (Slot.pollIter okFromAst 5 readySlotNat).execs ≤ readySlotNat.execs + 1 ∧
    (Slot.pollIter okFromAst 5 (Slot.new () 3 [42])).execs ≤ 1 :=
  ⟨(slot_idempotence okFromAst readySlotNat).1 1 rfl,
   (slot_idempotence okFromAst errSlotNat).2.1 rfl,
   (slot_idempotence okFromAst readySlotNat).2.2.1 5,
   (slot_idempotence okFromAst freshSlotNat).2.2.2 () 3 [42] 5⟩

/-- C4 — Reentrant-construction guard: polling a fresh slot replaces its
state with the tentative failure marker `readyErr` before running
`from_ast`, so the whole poll depends on `from_ast` only through its
behaviour at the `readyErr`-marked state (first conjunct: two construction
functions agreeing there produce identical polls), and any reentrant poll
of the slot as it stands during construction returns `Err(())` with the
slot unchanged — it neither reads the fresh inputs, nor re-enters
construction, nor diverges (second conjunct). -/
theorem slot_reentrant_guard {S I T : Type}
    (f g : S → I → SlotState S I T → Except Unit T) (s : Slot S I T)
    (sc : S) (a : I) (h : s.state = SlotState.fresh sc a)
    (hfg : f sc a SlotState.readyErr = g sc a SlotState.readyErr) :
    Slot.poll f s = Slot.poll g s ∧
    (∀ f2 : S → I → SlotState S I T → Except Unit T,
      Slot.poll f2 { s with state := SlotState.readyErr } =
        (Except.error (), { s with state := SlotState.readyErr })) := by
  constructor
  · simp only [Slot.poll, h, hfg]
  · intro f2
    exact Slot.poll_readyErr f2 _ rfl

/-- Witness for `slot_reentrant_guard`: two construction functions that
agree on the `readyErr` marker but not elsewhere give the same poll of a
fresh slot, and the mid-construction slot polls to `Err(())`. -/
theorem slot_reentrant_guard_witness :
    Slot.poll okFromAst freshSlotNat = Slot.poll reentrantFromAst freshSlotNat ∧
    Slot.poll okFromAst { freshSlotNat with state := SlotState.readyErr } =
      (Except.error (), { freshSlotNat with state := SlotState.readyErr }) := by
  obtain ⟨h1, h2⟩ :=
    slot_reentrant_guard okFromAst reentrantFromAst freshSlotNat () 3 rfl rfl
  exact ⟨h1, h2 okFromAst⟩

/-- C9 — Span forwarding: the `Node` impl of a slot polls the slot and
returns the span of the built node on success, or the sentinel
`INVALID_SPAN` when construction failed, so callers never handle the
fallible path themselves. -/
theorem slot_span_forwarding {S I T : Type}
    (f : S → I → SlotState S I T → Except Unit T) (sp : T → Span)
    (s : Slot S I T) (hwf : Slot.Wf s) :
    ((Slot.poll f s).1 = Except.error () →
      Slot.span f sp s = (INVALID_SPAN, (Slot.poll f s).2)) ∧
    (∀ i, (Slot.poll f s).1 = Except.ok i →
      ∃ t, (Slot.poll f s).2.arena.get? i = some t ∧
        Slot.span f sp s = (sp t, (Slot.poll f s).2)) := by
  constructor
  · intro he
    unfold Slot.span
    rcases hp : Slot.poll f s with ⟨e, s1⟩
    rw [hp] at he
    cases e with
    | ok i => exact Except.noConfusion he
    | error u => rfl
  · intro i hok
    obtain ⟨t, ht⟩ := Slot.poll_ok_get f s hwf i hok
    refine ⟨t, ht, ?_⟩
    unfold Slot.span
    rcases hp : Slot.poll f s with ⟨e, s1⟩
    rw [hp] at hok ht
    cases e with
    | error u => exact Except.noConfusion hok
    | ok j =>
      injection hok with hji
      subst hji
      have ht' : s1.arena.get? j = some t := ht
      show (match s1.arena.get? j with | some t => sp t | none => INVALID_SPAN, s1) =
        (sp t, s1)
      rw [ht']

/-- Witness for `slot_span_forwarding`: a failing construction yields the
sentinel span; a succeeding one yields the span of the node just placed in
the arena. -/
theorem slot_span_forwarding_witness :
    Slot.span errFromAst natSpan freshSlotNat =
      (INVALID_SPAN, (Slot.poll errFromAst freshSlotNat).2) ∧
    (∃ t, (Slot.poll okFromAst freshSlotNat).2.arena.get? 1 = some t ∧
      Slot.span okFromAst natSpan freshSlotNat =
        (natSpan t, (Slot.poll okFromAst freshSlotNat).2)) := by
  have hwf : Slot.Wf freshSlotNat := by
    intro i h
    exact SlotState.noConfusion h
  exact ⟨(slot_span_forwarding errFromAst natSpan freshSlotNat hwf).1 rfl,
    (slot_span_forwarding okFromAst natSpan freshSlotNat hwf).2 1 rfl⟩

/-! ## Lemmas about package construction -/

theorem get?_set_of_lt {α : Type} (l : List α) (i : Nat) (x : α) (h : i < l.length) :
    (l.set i x).get? i = some x := by
  rw [List.get?_set_eq, List.get?_eq_get h]
  rfl

/-- Structure of the child-slot allocation pass: one reference per nested
package or type declaration; the built-node arenas and the id counter are
untouched; the slot arenas only grow at the end; and every collected
reference points at a fresh slot of the resulting arena collection. -/
theorem allocDeclSlots_spec (sc : AnyScope) :
    ∀ (ds : List DeclItem) (ar : Arenas2),
      (allocDeclSlots sc ds ar).1.length = ds.countP DeclItem.isChild ∧
      (allocDeclSlots sc ds ar).2.package = ar.package ∧
      (allocDeclSlots sc ds ar).2.type_decl = ar.type_decl ∧
      (allocDeclSlots sc ds ar).2.nextId = ar.nextId ∧
      (∃ ns, (allocDeclSlots sc ds ar).2.package_slot = ar.package_slot ++ ns) ∧
      (∃ ns, (allocDeclSlots sc ds ar).2.type_decl_slot = ar.type_decl_slot ++ ns) ∧
      (∀ r ∈ (allocDeclSlots sc ds ar).1, r.isFreshIn (allocDeclSlots sc ds ar).2) := by
  intro ds
  induction ds with
  | nil =>
    intro ar
    refine ⟨rfl, rfl, rfl, rfl, ⟨[], (List.append_nil _).symm⟩,
      ⟨[], (List.append_nil _).symm⟩, ?_⟩
    intro r hr
    exact absurd hr (List.not_mem_nil r)
  | cons d ds ih =>
    intro ar
    cases d with
    | other =>
      simp only [allocDeclSlots, List.countP_cons, DeclItem.isChild]
      obtain ⟨h1, h2, h3, h4, h5, h6, h7⟩ := ih ar
      exact ⟨by simp [h1], h2, h3, h4, h5, h6, h7⟩
    | pkgDecl p =>
      simp only [allocDeclSlots, Package2.alloc_slot, List.countP_cons, DeclItem.isChild]
      obtain ⟨h1, h2, h3, h4, ⟨ns1, h5⟩, ⟨ns2, h6⟩, h7⟩ :=
        ih { ar with package_slot := ar.package_slot ++ [SlotState.fresh sc p] }
      refine ⟨?_, h2, h3, h4, ?_, ⟨ns2, h6⟩, ?_⟩
      · simp [h1]
      · exact ⟨SlotState.fresh sc p :: ns1, by rw [h5, List.append_assoc]; rfl⟩
      · intro r hr
        rcases List.mem_cons.mp hr with hhead | htail
        · subst hhead
          refine ⟨sc, p, ?_⟩
          rw [h5,
            List.get?_append
              (by rw [List.length_append, List.length_cons]; omega),
            List.get?_concat_length]
        · exact h7 r htail
    | typeDecl t =>
      simp only [allocDeclSlots, TypeDecl2.alloc_slot, List.countP_cons, DeclItem.isChild]
      obtain ⟨h1, h2, h3, h4, ⟨ns1, h5⟩, ⟨ns2, h6⟩, h7⟩ :=
        ih { ar with type_decl_slot := ar.type_decl_slot ++ [SlotState.fresh sc t] }
      refine ⟨?_, h2, h3, h4, ⟨ns1, h5⟩, ?_, ?_⟩
      · simp [h1]
      · exact ⟨SlotState.fresh sc t :: ns2, by rw [h6, List.append_assoc]; rfl⟩
      · intro r hr
        rcases List.mem_cons.mp hr with hhead | htail
        · subst hhead
          refine ⟨sc, t, ?_⟩
          rw [h6,
            List.get?_append
              (by rw [List.length_append, List.length_cons]; omega),
            List.get?_concat_length]
        · exact h7 r htail

/-! ## Claim theorems: package construction -/

/-- C8 — Deferred child construction: `Package2::from_ast` creates one
child slot per nested package or type declaration and collects references
to them as the `decls` edges (exposed verbatim by the `decls()` accessor),
but polls none of them: after construction every collected child slot is
still `Fresh`, and no node has been built into the `package` or
`type_decl` arenas. -/
theorem package_children_deferred (sc : AnyScope) (ast : PkgDecl) (ar : Arenas2) :
    ∃ pkg ar2,
      Package2.from_ast sc ast ar = (Except.ok pkg, ar2) ∧
      Package2.declsAccessor pkg = pkg.decls ∧
      pkg.decls.length = ast.declItems.countP DeclItem.isChild ∧
      (∀ r ∈ pkg.decls, r.isFreshIn ar2) ∧
      ar2.package = ar.package ∧
      ar2.type_decl = ar.type_decl := by
  obtain ⟨h1, h2, h3, _, _, _, h7⟩ := allocDeclSlots_spec sc ast.declItems ar
  refine ⟨_, _, rfl, rfl, h1, ?_, h2, h3⟩
  intro r hr
  have hfresh := h7 r hr
  cases r with
  | pkgSlot i => exact hfresh
  | typeSlot i => exact hfresh

/-- Witness for `package_children_deferred`: the example package with a
type declaration, an unhandled item, and a nested package. -/
theorem package_children_deferred_witness :
    ∃ pkg ar2,
      Package2.from_ast () exPkgDecl emptyArenas = (Except.ok pkg, ar2) ∧
      Package2.declsAccessor pkg = pkg.decls ∧
      pkg.decls.length = exPkgDecl.declItems.countP DeclItem.isChild ∧
      (∀ r ∈ pkg.decls, r.isFreshIn ar2) ∧
      ar2.package = emptyArenas.package ∧
      ar2.type_decl = emptyArenas.type_decl :=
  package_children_deferred () exPkgDecl emptyArenas

/-- C10 — Construction totality of the implemented node kinds:
`Package2::from_ast` and `TypeDecl2::from_ast` succeed on every input
(unhandled declaration kinds and hypothetical slot-allocation failures are
silently omitted from `decls` instead of failing construction), and
polling a fresh `Package2` or `TypeDecl2` slot therefore never ends in a
final `Err`: it always finishes in `readyOk`. -/
theorem construction_totality :
    (∀ (sc : AnyScope) (ast : PkgDecl) (ar : Arenas2),
      ∃ pkg ar2, Package2.from_ast sc ast ar = (Except.ok pkg, ar2)) ∧
    (∀ (sc : AnyScope) (ast : TypeDecl) (ar : Arenas2),
      ∃ t ar2, TypeDecl2.from_ast sc ast ar = (Except.ok t, ar2)) ∧
    (∀ (i : Nat) (ar : Arenas2) (sc : AnyScope) (ast : PkgDecl),
      ar.package_slot.get? i = some (SlotState.fresh sc ast) →
      ∃ j ar2, pollPackageSlot i ar = (Except.ok j, ar2) ∧
        ar2.package_slot.get? i = some (SlotState.readyOk j)) ∧
    (∀ (i : Nat) (ar : Arenas2) (sc : AnyScope) (ast : TypeDecl),
      ar.type_decl_slot.get? i = some (SlotState.fresh sc ast) →
      ∃ j ar2, pollTypeDeclSlot i ar = (Except.ok j, ar2) ∧
        ar2.type_decl_slot.get? i = some (SlotState.readyOk j)) := by
  refine ⟨fun sc ast ar => ⟨_, _, rfl⟩, fun sc ast ar => ⟨_, _, rfl⟩, ?_, ?_⟩
  · intro i ar sc ast h
    have hlt : i < ar.package_slot.length := (List.get?_eq_some.mp h).1
    obtain ⟨_, _, _, _, ⟨ns, hns⟩, _, _⟩ :=
      allocDeclSlots_spec sc ast.declItems
        { ar with package_slot := ar.package_slot.set i SlotState.readyErr }
    simp only [pollPackageSlot, h, Package2.from_ast]
    refine ⟨_, _, rfl, ?_⟩
    rw [hns]
    exact get?_set_of_lt _ i _
      (by rw [List.length_append, List.length_set]; omega)
  · intro i ar sc ast h
    have hlt : i < ar.type_decl_slot.length := (List.get?_eq_some.mp h).1
    simp only [pollTypeDeclSlot, h, TypeDecl2.from_ast]
    refine ⟨_, _, rfl, ?_⟩
    exact get?_set_of_lt _ i _ (by rw [List.length_set]; omega)

/-- Witness for `construction_totality`: the example nodes construct
successfully and their fresh slots poll to `readyOk`. -/
theorem construction_totality_witness :
    (∃ pkg ar2, Package2.from_ast () exPkgDecl emptyArenas = (Except.ok pkg, ar2)) ∧
    (∃ t ar2, TypeDecl2.from_ast () exTypeDecl emptyArenas = (Except.ok t, ar2)) ∧
    (∃ j ar2, pollPackageSlot 0 exArenas = (Except.ok j, ar2) ∧
      ar2.package_slot.get? 0 = some (SlotState.readyOk j)) ∧
    (∃ j ar2, pollTypeDeclSlot 0 exArenas = (Except.ok j, ar2) ∧
      ar2.type_decl_slot.get? 0 = some (SlotState.readyOk j)) := by
  obtain ⟨c1, c2, c3, c4⟩ := construction_totality
  exact ⟨c1 () exPkgDecl emptyArenas, c2 () exTypeDecl emptyArenas,
    c3 0 exArenas () exInnerPkg rfl, c4 0 exArenas () exTypeDecl rfl⟩
